import Mathlib

/-!
Verification of the expense-tracker persistence and query layer
(`src/main.py`): a single `expenses` table accessed by three operations
(`add_expense`, `list_expenses`, `summarize`) plus a schema initializer
(`init_db`).  The SQLite-backed table is embedded as an explicit state
(`DB`): a list of rows together with the autoincrement counter and the
schema marker.  `date` columns are compared with Lean's lexicographic
`String` order (SQLite's BINARY collation on UTF-8 text agrees with it),
and `REAL` amounts are modelled as exact rationals, since no claim in
scope depends on floating-point rounding.
-/

/-- A column type in the `expenses` DDL. -/
inductive ColType where
  | integer : ColType
  | real : ColType
  | text : ColType
deriving DecidableEq, Repr

/-- One column of the `CREATE TABLE` statement in `init_db`. -/
structure Column where
  name : String
  type : ColType
  notNull : Bool
  primaryKey : Bool
  autoincrement : Bool
deriving DecidableEq, Repr

/-- The table shape declared by `init_db`'s `CREATE TABLE IF NOT EXISTS expenses`. -/
def expensesSchema : List Column :=
  [⟨"id", ColType.integer, false, true, true⟩,
   ⟨"date", ColType.text, true, false, false⟩,
   ⟨"amount", ColType.real, true, false, false⟩,
   ⟨"category", ColType.text, true, false, false⟩,
   ⟨"subcategory", ColType.text, false, false, false⟩,
   ⟨"note", ColType.text, false, false, false⟩]

/-- One row of the `expenses` table. -/
structure Expense where
  id : Nat
  date : String
  amount : Rat
  category : String
  subcategory : Option String
  note : Option String
deriving DecidableEq, Repr

/-- The state of the database file: the declared table shape (if the table
exists), its rows in rowid order, and the next autoincrement identifier. -/
structure DB where
  schema : Option (List Column)
  rows : List Expense
  nextId : Nat
deriving DecidableEq, Repr

/-- The freshly created database file: no table, no rows, ids start at 1. -/
def DB.empty : DB := ⟨none, [], 1⟩

/-- `init_db` from `src/main.py`: executes
`CREATE TABLE IF NOT EXISTS expenses (...)`.  If a table named `expenses`
already exists the statement does nothing; otherwise it creates the table
with `expensesSchema`.  Rows are never touched. -/
def init_db (db : DB) : DB :=
  match db.schema with
  | none => { db with schema := some expensesSchema }
  | some _ => db

/-- The mapping returned by `add_expense`: `{"status": "success", "id": cur.lastrowid}`. -/
structure InsertResult where
  status : String
  id : Nat
deriving DecidableEq, Repr

/-- `add_expense` from `src/main.py`: a single parameterized
`INSERT INTO expenses(date, amount, category, subcategory, note)` followed
by a commit.  SQLite's AUTOINCREMENT assigns the next unused identifier;
the new row is appended in rowid order.  Returns the result mapping and
the post-commit state. -/
def add_expense (db : DB) (date : String) (amount : Rat) (category : String)
    (subcategory : Option String) (note : Option String) : InsertResult × DB :=
  let newId := db.nextId
  (⟨"success", newId⟩,
    { db with
      rows := db.rows ++ [⟨newId, date, amount, category, subcategory, note⟩],
      nextId := db.nextId + 1 })

/-- Lexicographic comparison of two strings as their character lists;
agrees with `≤` on `String` (see `strLe_eq_true_iff`) and with SQLite's
BINARY collation on UTF-8 text. -/
def strLe (s t : String) : Bool := decide (s.toList ≤ t.toList)

/-- The `WHERE date BETWEEN ? AND ?` predicate: inclusive on both ends,
comparing the stored date string lexicographically. -/
def inRange (start_date end_date : String) (r : Expense) : Bool :=
  strLe start_date r.date && strLe r.date end_date

/-- The `ORDER BY date DESC` relation on rows. -/
def dateGe (a b : Expense) : Prop := b.date ≤ a.date

instance : DecidableRel dateGe := fun a b => inferInstanceAs (Decidable (b.date ≤ a.date))

instance : IsTotal Expense dateGe :=
  ⟨fun a b => (le_total b.date a.date).imp id id⟩

instance : IsTrans Expense dateGe :=
  ⟨fun _ _ _ hab hbc => le_trans hbc hab⟩

/-- `list_expenses` from `src/main.py`:
`SELECT id, date, amount, category, subcategory, note FROM expenses
WHERE date BETWEEN ? AND ? ORDER BY date DESC`, each row projected to a
mapping with those six keys. -/
def list_expenses (db : DB) (start_date end_date : String) : List Expense :=
  List.insertionSort dateGe (db.rows.filter (inRange start_date end_date))

/-- Python truthiness of the `category: Optional[str]` argument, as tested
by `if category:` in `summarize`: `None` and the empty string are falsy. -/
def truthy : Option String → Bool
  | none => false
  | some s => !(s == "")

/-- One mapping of the `summarize` result:
`SELECT category, SUM(amount) AS total_amount, COUNT(*) AS count`. -/
structure SummaryRow where
  category : String
  total_amount : Rat
  count : Nat
deriving DecidableEq, Repr

/-- `SUM(amount)` over the rows of one category group. -/
def catTotal (rows : List Expense) (c : String) : Rat :=
  ((rows.filter (fun r => r.category == c)).map (fun r => r.amount)).sum

/-- `COUNT(*)` over the rows of one category group. -/
def catCount (rows : List Expense) (c : String) : Nat :=
  (rows.filter (fun r => r.category == c)).length

/-- `GROUP BY category`: one summary row per distinct category value among
`rows`, carrying that group's amount sum and row count.  The pre-`ORDER BY`
group order is an internal detail of the store; `List.dedup` fixes one
deterministic choice. -/
def groupSummary (rows : List Expense) : List SummaryRow :=
  ((rows.map (fun r => r.category)).dedup).map
    (fun c => ⟨c, catTotal rows c, catCount rows c⟩)

/-- The `ORDER BY total_amount DESC` relation on summary rows. -/
def totalGe (a b : SummaryRow) : Prop := b.total_amount ≤ a.total_amount

instance : DecidableRel totalGe :=
  fun a b => inferInstanceAs (Decidable (b.total_amount ≤ a.total_amount))

instance : IsTotal SummaryRow totalGe :=
  ⟨fun a b => (le_total b.total_amount a.total_amount).imp id id⟩

instance : IsTrans SummaryRow totalGe :=
  ⟨fun _ _ _ hab hbc => le_trans hbc hab⟩

/-- `summarize` from `src/main.py`: filters to the date range, appends
`AND category = ?` only when the `category` argument is truthy
(`if category:`), then `GROUP BY category ORDER BY total_amount DESC`. -/
def summarize (db : DB) (start_date end_date : String) (category : Option String) :
    List SummaryRow :=
  let base := db.rows.filter (inRange start_date end_date)
  let rows := if truthy category
    then base.filter (fun r => r.category == category.getD "")
    else base
  List.insertionSort totalGe (groupSummary rows)

/-- Every stored id is below the autoincrement counter.  This holds for the
fresh database and is preserved by every operation. -/
def WellFormed (db : DB) : Prop := ∀ r ∈ db.rows, r.id < db.nextId

instance (db : DB) : Decidable (WellFormed db) :=
  inferInstanceAs (Decidable (∀ r ∈ db.rows, r.id < db.nextId))

/-- The single error kind of the error-handling design: any storage-level
failure (connection, write, disk) surfaces as a `StorageError`. -/
inductive StorageError where
  | connectionFailure : StorageError
  | writeFailure : StorageError
deriving DecidableEq, Repr

/-- Modelled from the spec: the storage layer underneath `add_expense`
(the `aiosqlite` connection in `src/main.py`, outside this repository's
code) may fail on connect, execute or commit; per §4.2/§7 an uncommitted
insert is rolled back when the connection scope exits, so on failure the
error propagates with the state unchanged and no identifier is returned.
The `outcome` parameter is the storage layer's verdict for this call. -/
def add_expense_run (db : DB) (date : String) (amount : Rat) (category : String)
    (subcategory : Option String) (note : Option String)
    (outcome : Option StorageError) : Except StorageError InsertResult × DB :=
  match outcome with
  | some err => (Except.error err, db)
  | none =>
      let p := add_expense db date amount category subcategory note
      (Except.ok p.1, p.2)

/-- Modelled from the spec: `list_expenses` with its storage layer's
verdict — on failure the error propagates (reads change no state),
otherwise the complete result sequence is returned. -/
def list_expenses_run (db : DB) (start_date end_date : String)
    (outcome : Option StorageError) : Except StorageError (List Expense) :=
  match outcome with
  | some err => Except.error err
  | none => Except.ok (list_expenses db start_date end_date)

/-- Modelled from the spec: `summarize` with its storage layer's verdict. -/
def summarize_run (db : DB) (start_date end_date : String)
    (category : Option String) (outcome : Option StorageError) :
    Except StorageError (List SummaryRow) :=
  match outcome with
  | some err => Except.error err
  | none => Except.ok (summarize db start_date end_date category)

/-- The spec's description of the category-narrowed summary (§4.4):
restrict the rows matching the date range to those whose category is
exactly `c`, then group.  Used to compare against `summarize`. -/
def summarize_filter_then_group (db : DB) (start_date end_date c : String) :
    List SummaryRow :=
  List.insertionSort totalGe
    (groupSummary
      ((db.rows.filter (inRange start_date end_date)).filter
        (fun r => r.category == c)))

/-- A concrete populated database: the spec's `{Food,10},{Food,20},{Travel,5}`
example, all dated within January 2024. -/
def dbEx : DB :=
  ⟨some expensesSchema,
   [⟨1, "2024-01-10", 10, "Food", none, none⟩,
    ⟨2, "2024-01-12", 20, "Food", none, none⟩,
    ⟨3, "2024-01-20", 5, "Travel", none, none⟩],
   4⟩

-- Basic simp facts about the range predicate.

theorem strLe_eq_true_iff (s t : String) : strLe s t = true ↔ s ≤ t := by
  simp [strLe, String.le_iff_toList_le]

theorem inRange_iff (s e : String) (r : Expense) :
    inRange s e r = true ↔ s ≤ r.date ∧ r.date ≤ e := by
  simp [inRange, strLe_eq_true_iff]

/-- C4: `list_expenses` returns exactly the rows whose stored date string
lies in `[start_date, end_date]` under lexicographic comparison, inclusive
on both endpoints, and no others: the result is a permutation of the
filtered rows, and membership is characterized by the two inequalities. -/
theorem list_expenses_exactly_range (db : DB) (s e : String) :
    (list_expenses db s e).Perm
        (db.rows.filter (fun r => decide (s ≤ r.date ∧ r.date ≤ e))) ∧
    ∀ r : Expense, r ∈ list_expenses db s e ↔
      r ∈ db.rows ∧ s ≤ r.date ∧ r.date ≤ e := by
  have hfun : ∀ r ∈ db.rows,
      inRange s e r = decide (s ≤ r.date ∧ r.date ≤ e) := by
    intro r _
    rw [Bool.eq_iff_iff, decide_eq_true_eq]
    exact inRange_iff s e r
  constructor
  · unfold list_expenses
    rw [← List.filter_congr hfun]
    exact List.perm_insertionSort dateGe _
  · intro r
    unfold list_expenses
    rw [List.Perm.mem_iff (List.perm_insertionSort dateGe _)]
    simp [List.mem_filter, inRange_iff, and_assoc]

/-- C5: the sequence returned by `list_expenses` is sorted non-increasing
by `date`: every element's date is lexicographically at least the date of
every later element. -/
theorem list_expenses_sorted (db : DB) (s e : String) :
    (list_expenses db s e).Sorted dateGe :=
  List.sorted_insertionSort dateGe _

/-- C1: after a successful insert with date `d`, amount `a`, category `c`
and no subcategory or note, returning identifier `N = db.nextId`, any
`list_expenses` over a range containing `d` includes exactly one row with
that identifier, and it carries exactly the inserted field values with
`subcategory` and `note` null. -/
theorem insert_then_read (db : DB) (hwf : WellFormed db)
    (d : String) (a : Rat) (c : String) (s e : String)
    (hs : s ≤ d) (he : d ≤ e) :
    (add_expense db d a c none none).1.id = db.nextId ∧
    (list_expenses (add_expense db d a c none none).2 s e).filter
        (fun r => r.id == db.nextId) =
      [⟨db.nextId, d, a, c, none, none⟩] := by
  refine ⟨rfl, ?_⟩
  have hperm :
      ((list_expenses (add_expense db d a c none none).2 s e).filter
          (fun r => r.id == db.nextId)).Perm
        (((add_expense db d a c none none).2.rows.filter
            (inRange s e)).filter (fun r => r.id == db.nextId)) :=
    (List.perm_insertionSort dateGe _).filter _
  have hval :
      (((add_expense db d a c none none).2.rows.filter
          (inRange s e)).filter (fun r => r.id == db.nextId)) =
        [⟨db.nextId, d, a, c, none, none⟩] := by
    show (((db.rows ++ [(⟨db.nextId, d, a, c, none, none⟩ : Expense)]).filter
        (inRange s e)).filter (fun r => r.id == db.nextId)) =
      [(⟨db.nextId, d, a, c, none, none⟩ : Expense)]
    rw [List.filter_append, List.filter_append]
    have hold : (db.rows.filter (inRange s e)).filter
        (fun r => r.id == db.nextId) = [] := by
      rw [List.filter_eq_nil_iff]
      intro r hr
      have hmem : r ∈ db.rows := List.mem_of_mem_filter hr
      have hlt : r.id < db.nextId := hwf r hmem
      simp only [beq_iff_eq]
      omega
    have hnew : ([⟨db.nextId, d, a, c, none, none⟩] : List Expense).filter
          (inRange s e) = [⟨db.nextId, d, a, c, none, none⟩] := by
      simp [inRange, strLe_eq_true_iff, hs, he]
    rw [hold, hnew]
    simp
  rw [hval] at hperm
  exact List.perm_singleton.mp hperm

/-- Witness for C1 at a concrete database, insert and range. -/
theorem insert_then_read_witness :
    WellFormed ⟨some expensesSchema, [], 1⟩ ∧
    ("2024-01-01" : String) ≤ "2024-01-15" ∧
    ("2024-01-15" : String) ≤ "2024-01-31" ∧
    ((add_expense ⟨some expensesSchema, [], 1⟩ "2024-01-15" (42.5 : Rat)
        "Food" none none).1.id = 1 ∧
      (list_expenses (add_expense ⟨some expensesSchema, [], 1⟩ "2024-01-15"
            (42.5 : Rat) "Food" none none).2 "2024-01-01" "2024-01-31").filter
          (fun r => r.id == 1) =
        [⟨1, "2024-01-15", (42.5 : Rat), "Food", none, none⟩]) :=
  ⟨by decide,
    by rw [String.le_iff_toList_le]; decide,
    by rw [String.le_iff_toList_le]; decide,
    insert_then_read ⟨some expensesSchema, [], 1⟩ (by decide)
      "2024-01-15" (42.5 : Rat) "Food" "2024-01-01" "2024-01-31"
      (by rw [String.le_iff_toList_le]; decide)
      (by rw [String.le_iff_toList_le]; decide)⟩

/-- C6: over a range matching no rows (in particular an empty or inverted
range), `list_expenses` and `summarize` both return the empty sequence —
they are total functions, so no error is possible. -/
theorem empty_range_empty_results (db : DB) (s e : String)
    (h : ∀ r ∈ db.rows, ¬(s ≤ r.date ∧ r.date ≤ e)) :
    list_expenses db s e = [] ∧
    ∀ c : Option String, summarize db s e c = [] := by
  have hfil : db.rows.filter (inRange s e) = [] := by
    rw [List.filter_eq_nil_iff]
    intro r hr
    rw [inRange_iff]
    exact h r hr
  constructor
  · simp [list_expenses, hfil]
  · intro c
    cases hc : truthy c <;>
      simp [summarize, hfil, hc, groupSummary]

/-- Witness for C6: a one-row database and an inverted range. -/
theorem empty_range_empty_results_witness :
    (∀ r ∈ dbEx.rows, ¬("2024-02-01" ≤ r.date ∧ r.date ≤ "2024-01-01")) ∧
    (list_expenses dbEx "2024-02-01" "2024-01-01" = [] ∧
      ∀ c : Option String, summarize dbEx "2024-02-01" "2024-01-01" c = []) :=
  ⟨by simp only [String.le_iff_toList_le]; decide,
    empty_range_empty_results dbEx "2024-02-01" "2024-01-01"
      (by simp only [String.le_iff_toList_le]; decide)⟩

/-- C7: operations have no degraded outcome.  An insert either commits
exactly one new row and returns its identifier, or surfaces a
`StorageError` with the table state unchanged and no identifier returned;
`list_expenses` and `summarize` either return their complete result
sequence or surface the error, never a truncated sequence. -/
theorem atomic_commit_or_error (db : DB) (d : String) (a : Rat) (c : String)
    (sub nt : Option String) (s e : String) (co : Option String)
    (o : Option StorageError) :
    ((∃ err, add_expense_run db d a c sub nt o = (Except.error err, db)) ∨
      add_expense_run db d a c sub nt o =
        (Except.ok ⟨"success", db.nextId⟩,
          { db with rows := db.rows ++ [⟨db.nextId, d, a, c, sub, nt⟩],
                    nextId := db.nextId + 1 })) ∧
    ((∃ err, list_expenses_run db s e o = Except.error err) ∨
      list_expenses_run db s e o = Except.ok (list_expenses db s e)) ∧
    ((∃ err, summarize_run db s e co o = Except.error err) ∨
      summarize_run db s e co o = Except.ok (summarize db s e co)) := by
  cases o with
  | none =>
      exact ⟨Or.inr rfl, Or.inr rfl, Or.inr rfl⟩
  | some err =>
      exact ⟨Or.inl ⟨err, rfl⟩, Or.inl ⟨err, rfl⟩, Or.inl ⟨err, rfl⟩⟩

/-- C8: schema initialization is idempotent — a second call changes
nothing, rows and the id counter are preserved, and a database already
carrying the matching shape is returned untouched (no error path exists:
`init_db` is a total function). -/
theorem init_db_idempotent (db : DB) :
    init_db (init_db db) = init_db db ∧
    (init_db db).rows = db.rows ∧
    (init_db db).nextId = db.nextId ∧
    (db.schema = some expensesSchema → init_db db = db) := by
  cases hs : db.schema <;>
    simp [init_db, hs]

/-- Witness for C8 on a database that already has the schema and rows. -/
theorem init_db_idempotent_witness :
    init_db (init_db dbEx) = init_db dbEx ∧
    (init_db dbEx).rows = dbEx.rows ∧
    (init_db dbEx).nextId = dbEx.nextId ∧
    (dbEx.schema = some expensesSchema → init_db dbEx = dbEx) :=
  init_db_idempotent dbEx

/-- C9: identifiers are unique and strictly increasing across successive
inserts, and no operation rewrites an existing row: two consecutive
inserts return strictly increasing identifiers, preserve the id bound,
keep the stored ids duplicate-free, and leave every pre-existing row in
place unchanged (no update or delete operation exists in the embedding). -/
theorem ids_unique_monotone (db : DB) (hwf : WellFormed db)
    (d₁ : String) (a₁ : Rat) (c₁ : String) (s₁ n₁ : Option String)
    (d₂ : String) (a₂ : Rat) (c₂ : String) (s₂ n₂ : Option String) :
    (add_expense db d₁ a₁ c₁ s₁ n₁).1.id <
      (add_expense (add_expense db d₁ a₁ c₁ s₁ n₁).2 d₂ a₂ c₂ s₂ n₂).1.id ∧
    WellFormed (add_expense db d₁ a₁ c₁ s₁ n₁).2 ∧
    WellFormed (add_expense (add_expense db d₁ a₁ c₁ s₁ n₁).2 d₂ a₂ c₂ s₂ n₂).2 ∧
    ((db.rows.map (fun r => r.id)).Nodup →
      (((add_expense (add_expense db d₁ a₁ c₁ s₁ n₁).2 d₂ a₂ c₂ s₂ n₂).2).rows.map
          (fun r => r.id)).Nodup) ∧
    ((add_expense (add_expense db d₁ a₁ c₁ s₁ n₁).2 d₂ a₂ c₂ s₂ n₂).2).rows =
      db.rows ++ [⟨db.nextId, d₁, a₁, c₁, s₁, n₁⟩,
                  ⟨db.nextId + 1, d₂, a₂, c₂, s₂, n₂⟩] := by
  refine ⟨Nat.lt_succ_self _, ?_, ?_, ?_, by simp [add_expense]⟩
  · intro r hr
    rcases List.mem_append.mp hr with hold | hnew
    · exact Nat.lt_succ_of_lt (hwf r hold)
    · rcases List.mem_singleton.mp hnew with rfl
      exact Nat.lt_succ_self _
  · intro r hr
    show r.id < db.nextId + 1 + 1
    rcases List.mem_append.mp hr with hr' | hnew
    · rcases List.mem_append.mp hr' with hold | hfst
      · exact Nat.lt_succ_of_lt (Nat.lt_succ_of_lt (hwf r hold))
      · rcases List.mem_singleton.mp hfst with rfl
        exact Nat.lt_succ_of_lt (Nat.lt_succ_self _)
    · rcases List.mem_singleton.mp hnew with rfl
      exact Nat.lt_succ_self _
  · intro hnd
    have hbnd : ∀ i ∈ db.rows.map (fun r => r.id), i < db.nextId := by
      intro i hi
      rcases List.mem_map.mp hi with ⟨r, hr, rfl⟩
      exact hwf r hr
    simp only [add_expense, List.append_assoc, List.map_append,
      List.nodup_append, List.map_cons, List.map_nil]
    refine ⟨hnd, ?_, ?_⟩
    · simp [List.Nodup]
    · intro i hi hj
      have hilt : i < db.nextId := hbnd i hi
      simp only [List.mem_append, List.mem_cons, List.mem_singleton,
        List.not_mem_nil, or_false] at hj
      rcases hj with rfl | rfl <;> omega

/-- Witness for C9: two inserts into the fresh database yield ids 1 and 2. -/
theorem ids_unique_monotone_witness :
    WellFormed ⟨some expensesSchema, [], 1⟩ ∧
    ((add_expense ⟨some expensesSchema, [], 1⟩ "2024-01-01" 1 "Food" none none).1.id <
      (add_expense (add_expense ⟨some expensesSchema, [], 1⟩ "2024-01-01" 1 "Food"
          none none).2 "2024-01-02" 2 "Travel" none none).1.id ∧
      WellFormed (add_expense ⟨some expensesSchema, [], 1⟩ "2024-01-01" 1 "Food"
          none none).2 ∧
      WellFormed (add_expense (add_expense ⟨some expensesSchema, [], 1⟩ "2024-01-01"
          1 "Food" none none).2 "2024-01-02" 2 "Travel" none none).2 ∧
      (((⟨some expensesSchema, [], 1⟩ : DB).rows.map (fun r => r.id)).Nodup →
        (((add_expense (add_expense ⟨some expensesSchema, [], 1⟩ "2024-01-01" 1
            "Food" none none).2 "2024-01-02" 2 "Travel" none none).2).rows.map
            (fun r => r.id)).Nodup) ∧
      ((add_expense (add_expense ⟨some expensesSchema, [], 1⟩ "2024-01-01" 1 "Food"
          none none).2 "2024-01-02" 2 "Travel" none none).2).rows =
        [⟨1, "2024-01-01", 1, "Food", none, none⟩,
         ⟨2, "2024-01-02", 2, "Travel", none, none⟩]) :=
  ⟨by decide,
    ids_unique_monotone ⟨some expensesSchema, [], 1⟩ (by decide)
      "2024-01-01" 1 "Food" none none "2024-01-02" 2 "Travel" none none⟩

/-- C2: `summarize` without a category argument returns one mapping per
distinct category among the rows in the date range, each carrying that
group's amount sum and row count, ordered non-increasing by
`total_amount` (tie order among equal totals left to the sort). -/
theorem summarize_grouped (db : DB) (s e : String) :
    ((summarize db s e none).map (fun g => g.category)).Nodup ∧
    (∀ c : String, c ∈ (summarize db s e none).map (fun g => g.category) ↔
        c ∈ (db.rows.filter (inRange s e)).map (fun r => r.category)) ∧
    (∀ g ∈ summarize db s e none,
        g.total_amount = catTotal (db.rows.filter (inRange s e)) g.category ∧
        g.count = catCount (db.rows.filter (inRange s e)) g.category) ∧
    (summarize db s e none).Sorted totalGe := by
  have hdef : summarize db s e none =
      List.insertionSort totalGe
        (groupSummary (db.rows.filter (inRange s e))) := rfl
  have hperm : (summarize db s e none).Perm
      (groupSummary (db.rows.filter (inRange s e))) := by
    rw [hdef]
    exact List.perm_insertionSort totalGe _
  have hmap : (groupSummary (db.rows.filter (inRange s e))).map
        (fun g => g.category) =
      ((db.rows.filter (inRange s e)).map (fun r => r.category)).dedup := by
    unfold groupSummary
    rw [List.map_map]
    exact List.map_id _
  refine ⟨?_, ?_, ?_, ?_⟩
  · rw [(hperm.map (fun g => g.category)).nodup_iff, hmap]
    exact List.nodup_dedup _
  · intro c
    rw [(hperm.map (fun g => g.category)).mem_iff, hmap, List.mem_dedup]
  · intro g hg
    have hmem : g ∈ groupSummary (db.rows.filter (inRange s e)) :=
      hperm.mem_iff.mp hg
    rcases List.mem_map.mp hmem with ⟨c, _, rfl⟩
    exact ⟨rfl, rfl⟩
  · rw [hdef]
    exact List.sorted_insertionSort totalGe _

/-- Witness for C2 on the spec's `{Food,10},{Food,20},{Travel,5}` data. -/
theorem summarize_grouped_witness :
    ((summarize dbEx "2024-01-01" "2024-01-31" none).map
        (fun g => g.category)).Nodup ∧
    (∀ c : String,
        c ∈ (summarize dbEx "2024-01-01" "2024-01-31" none).map
            (fun g => g.category) ↔
        c ∈ (dbEx.rows.filter (inRange "2024-01-01" "2024-01-31")).map
            (fun r => r.category)) ∧
    (∀ g ∈ summarize dbEx "2024-01-01" "2024-01-31" none,
        g.total_amount =
          catTotal (dbEx.rows.filter (inRange "2024-01-01" "2024-01-31"))
            g.category ∧
        g.count =
          catCount (dbEx.rows.filter (inRange "2024-01-01" "2024-01-31"))
            g.category) ∧
    (summarize dbEx "2024-01-01" "2024-01-31" none).Sorted totalGe :=
  summarize_grouped dbEx "2024-01-01" "2024-01-31"

-- A duplicate-free list whose elements are all equal has at most one entry.

theorem dedup_length_le_one_of_all_eq {l : List String} {c : String}
    (h : ∀ x ∈ l, x = c) : l.dedup.length ≤ 1 := by
  induction l with
  | nil => simp
  | cons a t ih =>
      by_cases hm : a ∈ t
      · rw [List.dedup_cons_of_mem hm]
        exact ih fun x hx => h x (List.mem_cons_of_mem a hx)
      · rw [List.dedup_cons_of_not_mem hm]
        have ht : t = [] := by
          cases t with
          | nil => rfl
          | cons b u =>
              exfalso
              have hb : b = c := h b (by simp)
              have ha : a = c := h a (by simp)
              exact hm (by rw [ha, ← hb]; simp)
        subst ht
        simp

/-- C3 fails as stated: at the empty-string category, `summarize` ignores
the filter (`if category:` is falsy on `""`), so on data with two
categories it returns two groups, while filtering to category `""` and
then grouping returns none — in particular more than one result row. -/
theorem summarize_category_counterexample :
    ¬(summarize dbEx "2024-01-01" "2024-12-31" (some "") =
        summarize_filter_then_group dbEx "2024-01-01" "2024-12-31" "" ∧
      (summarize dbEx "2024-01-01" "2024-12-31" (some "")).length ≤ 1) := by
  intro hcl
  have hlen : (summarize dbEx "2024-01-01" "2024-12-31" (some "")).length = 2 := by
    have h0 : summarize dbEx "2024-01-01" "2024-12-31" (some "") =
        List.insertionSort totalGe
          (groupSummary (dbEx.rows.filter (inRange "2024-01-01" "2024-12-31"))) :=
      rfl
    rw [h0, List.length_insertionSort]
    unfold groupSummary
    rw [List.length_map]
    decide
  have h2 := hcl.2
  rw [hlen] at h2
  omega

/-- C3 amended: for every supplied non-empty category `c`, `summarize`
equals restricting the rows in range to category `c` and then grouping,
and therefore returns at most one result row. -/
theorem summarize_category_filter (db : DB) (s e c : String) (hc : c ≠ "") :
    summarize db s e (some c) = summarize_filter_then_group db s e c ∧
    (summarize db s e (some c)).length ≤ 1 := by
  have htr : truthy (some c) = true := by
    simp [truthy, hc]
  have heq : summarize db s e (some c) = summarize_filter_then_group db s e c := by
    unfold summarize summarize_filter_then_group
    simp [htr]
  refine ⟨heq, ?_⟩
  rw [heq]
  unfold summarize_filter_then_group
  rw [List.length_insertionSort]
  unfold groupSummary
  rw [List.length_map]
  apply dedup_length_le_one_of_all_eq
  intro x hx
  rcases List.mem_map.mp hx with ⟨r, hr, rfl⟩
  have hrf := (List.mem_filter.mp hr).2
  exact beq_iff_eq.mp hrf

/-- Witness for the amended C3: the `Travel` filter on the example data. -/
theorem summarize_category_filter_witness :
    ("Travel" : String) ≠ "" ∧
    (summarize dbEx "2024-01-01" "2024-01-31" (some "Travel") =
        summarize_filter_then_group dbEx "2024-01-01" "2024-01-31" "Travel" ∧
      (summarize dbEx "2024-01-01" "2024-01-31" (some "Travel")).length ≤ 1) :=
  ⟨by decide,
    summarize_category_filter dbEx "2024-01-01" "2024-01-31" "Travel" (by decide)⟩

/-- C10: a `summarize` call whose `category` argument is the empty string
behaves exactly like a call with `category` absent — `if category:` treats
the empty string as falsy, so the category predicate is omitted and the
full grouped summary over the range is returned. -/
theorem summarize_empty_string_as_absent (db : DB) (s e : String) :
    summarize db s e (some "") = summarize db s e none := by
  simp [summarize, truthy]
